import Mathlib

/-! Verification of the topic-broadcast chat prototype (`src/client.rs`,
`src/main.rs`).

Strings are modelled as `List Char` (`Str`); Rust's `str::split('-')`,
`str::starts_with` and slice `join("-")` are modelled by the executable
functions `splitOnChar`, `starts_with` and `joinSep` below.  Nondeterministic
inputs of the code (freshly generated UUIDs, `Utc::now()` timestamps) are
passed as explicit parameters. -/

namespace IrohLab

abbrev Str := List Char

/-- Rust `str::split(sep)` on the character level: `"".split` is `[""]`,
separators at the ends produce empty segments. -/
def splitOnChar (sep : Char) : Str → List Str
  | [] => [[]]
  | c :: s =>
    match splitOnChar sep s with
    | [] => [[c]]
    | a :: as => if c = sep then [] :: a :: as else (c :: a) :: as

/-- Rust slice `join(sep)` for a one-character separator. -/
def joinSep (sep : Char) : List Str → Str
  | [] => []
  | [a] => a
  | a :: as => a ++ sep :: joinSep sep as

/-- Rust `str::starts_with`. -/
def starts_with (p s : Str) : Bool := decide (s.take p.length = p)

/-- The wire-format marker `"ticket-"` of tickets. -/
def ticketTag : Str := "ticket-".toList

/-- The `"Invalid ticket format"` error string of `join_topic`. -/
def invalidTicketMsg : Str := "Invalid ticket format".toList

/-- The `"No active topic hash"` error string of `send_message`. -/
def noActiveTopicMsg : Str := "No active topic hash".toList

/-! Section: message envelopes and the in-process broadcast mechanism
(`src/client.rs`). -/

/-- Structure `ChatMessage` from `client.rs` (also duplicated in `main.rs`).
The `DateTime<Utc>` timestamp is abstracted to a `Nat` instant. -/
structure ChatMessage where
  id : Str
  author : Str
  content : Str
  timestamp : Nat
  topic_hash : Str
  sequence : Nat
deriving DecidableEq, Repr

/-- A forwarder channel's receiver-side state: `some q` is a live unbounded
queue with pending messages `q`; `none` is a channel whose receiver was
dropped, so `UnboundedSender::send` fails on it. -/
abbrev Forwarder := Option (List ChatMessage)

/-- The mutable statics of `client.rs`.

Note that `MESSAGE_FORWARDERS` is declared as a function-local `static mut`
twice: once inside `get_message_receiver` (line 107) and once inside
`broadcast_message` (line 167).  In Rust, items declared in a function body
are scoped to that function, so these are two distinct statics; they are
modelled as the two distinct fields `regForwarders` (the one
`get_message_receiver` populates) and `bcastForwarders` (the one
`broadcast_message` reads, which no code ever initializes). -/
structure Hub where
  senderSome : Bool
  mainQueue : Forwarder
  regForwarders : List Forwarder
  bcastForwarders : Option (List Forwarder)
deriving DecidableEq, Repr

/-- The state of the statics before any channel setup. -/
def Hub.start : Hub := ⟨false, none, [], none⟩

/-- The ping `ChatMessage` built in `get_message_receiver` (lines 118-125),
used "just for checking channel liveness". -/
def pingMessage (now : Nat) : ChatMessage :=
  ⟨"ping".toList, "system".toList, "ping".toList, now, "ping".toList, 0⟩

/-- Delivery of `m` to a forwarder inside a `retain` closure: a live channel
keeps its slot and queues `m`; a closed channel's send fails and the slot is
dropped. -/
def deliverRetain (m : ChatMessage) : Forwarder → Option Forwarder
  | none => none
  | some q => some (some (q ++ [m]))

/-- Models `IrohClient::broadcast_message` (client.rs lines 146-191).  Ping
messages are filtered out up front; otherwise the message is sent to the main
channel (failure only logged) and to the forwarder list of the
`broadcast_message`-local static, pruning closed channels via `retain`.  The
Rust function always returns unit; it is total here. -/
def broadcast_message (h : Hub) (m : ChatMessage) : Hub :=
  if m.id = "ping".toList ∧ m.author = "system".toList then h
  else
    { h with
      mainQueue :=
        if h.senderSome then (deliverRetain m h.mainQueue).getD h.mainQueue else h.mainQueue
      bcastForwarders :=
        match h.bcastForwarders with
        | none => none
        | some fwds => some (fwds.filterMap (deliverRetain m)) }

/-- Models `IrohClient::get_message_receiver` (client.rs lines 96-143).  When
the main sender exists, every forwarder in the `get_message_receiver`-local
static is pinged (closed ones are pruned by `retain`, live ones receive the
ping message), then the new receiver's sender is appended; the index of the
new receiver is returned.  When no main sender exists, `None` is returned and
nothing changes. -/
def get_message_receiver (h : Hub) (now : Nat) : Hub × Option Nat :=
  if h.senderSome then
    let pinged := h.regForwarders.filterMap (deliverRetain (pingMessage now))
    ({ h with regForwarders := pinged ++ [some []] }, some pinged.length)
  else (h, none)

/-! Section: the client topic operations (`src/client.rs`). -/

/-- State of an `IrohClient` (client.rs lines 46-53).  `subscribed_topics` is
the `HashMap<String, String>` modelled as an association list; `endpoint`
keeps only whether an endpoint is present. -/
structure Client where
  node_id : Option Str
  topic_ticket : Option Str
  topic_hash : Option Str
  subscribed_topics : List (Str × Str)
  endpoint : Bool
deriving DecidableEq, Repr

/-- Models `IrohClient::new`. -/
def Client.new : Client := ⟨none, none, none, [], false⟩

/-- Models `HashMap::insert`: replaces any previous binding of the key. -/
def mapInsert (k v : Str) (m : List (Str × Str)) : List (Str × Str) :=
  (k, v) :: m.filter (fun p => p.1 ≠ k)

/-- Models `HashMap::get`. -/
def mapLookup (k : Str) (m : List (Str × Str)) : Option Str :=
  (m.find? (fun p => p.1 = k)).map (fun p => p.2)

/-- Models `IrohClient::create_topic` (client.rs lines 245-300).  Here `uuid`
stands for the freshly generated `Uuid::new_v4().to_string()`, `sysMid` for
the id of the announcement message and `now` for `Utc::now()`.  The Rust
function returns `Ok` on every path. -/
def create_topic (c : Client) (topic_name uuid sysMid : Str) (now : Nat) (h : Hub) :
    (Str × Str × Str) × Client × Hub :=
  let topic_hash := topic_name ++ '-' :: uuid
  let ticket := ticketTag ++ topic_name ++ '-' :: uuid
  let c' := { c with
    topic_ticket := some ticket
    topic_hash := some topic_hash
    subscribed_topics := mapInsert topic_name topic_hash c.subscribed_topics }
  let h' :=
    if c.endpoint then
      broadcast_message h
        ⟨sysMid, "System".toList,
          "Topic '".toList ++ topic_name ++ "' was created".toList, now, topic_hash, 0⟩
    else h
  ((topic_name, ticket, topic_hash), c', h')

/-- Models `IrohClient::join_topic` (client.rs lines 302-384).  Here
`freshUuid` stands for the `Uuid::new_v4().to_string()` generated in the
non-ticket branch and `sysMid` for the id of the join announcement.  Tickets
with the ticket marker are split on the separator; with at least 3 segments
the last segment is taken as uuid and the middle segments re-joined as the
topic name, otherwise the call fails.  A ticket without the marker is
accepted as a "custom ticket" with topic name `"joined-topic"` and a fresh
uuid as hash. -/
def join_topic (c : Client) (ticket freshUuid sysMid : Str) (now : Nat) (h : Hub) :
    Except Str (Str × Str) × Client × Hub :=
  if starts_with ticketTag ticket then
    let parts := splitOnChar '-' ticket
    if 3 ≤ parts.length then
      let topic_name := joinSep '-' (parts.drop 1).dropLast
      let uuid := parts.getLastD []
      let topic_hash := topic_name ++ '-' :: uuid
      let c' := { c with
        topic_ticket := some ticket
        topic_hash := some topic_hash
        subscribed_topics := mapInsert topic_name topic_hash c.subscribed_topics }
      let h' :=
        if c.endpoint then
          broadcast_message h
            ⟨sysMid, "System".toList, "A new user joined the topic".toList, now, topic_hash, 0⟩
        else h
      (.ok (topic_name, topic_hash), c', h')
    else (.error invalidTicketMsg, c, h)
  else
    let topic_name := "joined-topic".toList
    let topic_hash := freshUuid
    let c' := { c with
      topic_ticket := some ticket
      topic_hash := some topic_hash
      subscribed_topics := mapInsert topic_name topic_hash c.subscribed_topics }
    (.ok (topic_name, topic_hash), c', h)

/-- Models `IrohClient::send_message` (client.rs lines 391-439).  Fails with
`"No active topic hash"` when `topic_hash` is `None`; otherwise builds the
envelope with a fresh id `mid` and broadcasts it, returning `Ok(())`. -/
def send_message (c : Client) (username message_content : Str) (sequence : Nat)
    (mid : Str) (now : Nat) (h : Hub) : Except Str Unit × Hub :=
  match c.topic_hash with
  | none => (.error noActiveTopicMsg, h)
  | some topic_hash =>
    (.ok (), broadcast_message h ⟨mid, username, message_content, now, topic_hash, sequence⟩)

/-! Section: the UI application state (`src/main.rs`). -/

/-- The dedup admission check of `Message::MessageReceived` (main.rs lines
460-467): `processed_message_ids.contains` followed by `insert`.  Returns
whether the id is surfaced together with the updated set (a `HashSet<String>`
modelled as a list of previously seen ids). -/
def dedupCheck (processed : List Str) (id : Str) : Bool × List Str :=
  if id ∈ processed then (false, processed) else (true, id :: processed)

/-- Runs `dedupCheck` over a sequence of incoming envelope ids, returning the
surfacing decision for each call. -/
def runDedup : List Str → List Str → List Bool
  | _, [] => []
  | processed, id :: rest =>
    match dedupCheck processed id with
    | (b, processed') => b :: runDedup processed' rest

/-- The `InputState` enum from main.rs (lines 63-88). -/
inductive InputState where
  | welcome (username : Str)
  | mainMenu (username : Str)
  | createTopic (username topic_name : Str)
  | joinTopic (username ticket : Str)
  | topicCreated (username topic_name ticket : Str)
  | chatRoom (username message : Str)
deriving DecidableEq, Repr

/-- Models `IrohChat::get_username` (main.rs lines 787-796): every variant
carries a username, so the result is always `Some`. -/
def getUsername : InputState → Option Str
  | .welcome u => some u
  | .mainMenu u => some u
  | .createTopic u _ => some u
  | .joinTopic u _ => some u
  | .topicCreated u _ _ => some u
  | .chatRoom u _ => some u

/-- The `IrohChat` application state (main.rs lines 39-60), restricted to the
fields the modelled update arms read or write. -/
structure AppState where
  input_state : InputState
  current_topic : Option Str
  messages : List ChatMessage
  processed_message_ids : List Str
  sequence_counter : Nat
  topic_ticket : Option Str
  topic_hash : Option Str
  subscribed_topics : List (Str × Str)
  error : Option Str
deriving DecidableEq, Repr

/-- Models `IrohChat::new` (main.rs lines 130-157). -/
def AppState.start : AppState :=
  ⟨.welcome [], none, [], [], 0, none, none, [], none⟩

/-- The `Message::MessageReceived` arm of `update` (main.rs lines 460-467). -/
def updateMessageReceived (s : AppState) (m : ChatMessage) : AppState :=
  match dedupCheck s.processed_message_ids m.id with
  | (true, processed') =>
    { s with messages := s.messages ++ [m], processed_message_ids := processed' }
  | (false, _) => s

/-- The `Message::MessageChanged` arm of `update` (main.rs lines 194-199). -/
def updateMessageChanged (s : AppState) (message : Str) : AppState :=
  match s.input_state with
  | .chatRoom u _ => { s with input_state := .chatRoom u message }
  | _ => s

/-- The `Message::SendMessage` arm of `update` (main.rs lines 328-398),
excluding the spawned async continuation (whose simulated reply arrives later
as a separate `MessageReceived`).  Here `mid` stands for the generated
`Uuid::new_v4().to_string()` and `now` for `Utc::now()`. -/
def updateSendMessage (s : AppState) (mid : Str) (now : Nat) : AppState :=
  match s.input_state with
  | .chatRoom username message =>
    if message.any (fun c => ¬ c.isWhitespace) ∧ s.current_topic.isSome ∧ s.topic_hash.isSome
    then
      let chat_message : ChatMessage :=
        ⟨mid, username, message, now, s.topic_hash.getD [], s.sequence_counter⟩
      { s with
        sequence_counter := s.sequence_counter + 1
        input_state := .chatRoom username []
        messages := s.messages ++ [chat_message]
        processed_message_ids := mid :: s.processed_message_ids }
    else s
  | _ => s

/-- The `Message::BackToMenu` arm of `update` (main.rs lines 232-241). -/
def updateBackToMenu (s : AppState) : AppState :=
  match getUsername s.input_state with
  | some username =>
    { s with input_state := .mainMenu username, current_topic := none, messages := [] }
  | none => s

/-- The `Message::TopicJoined` arm of `update` (main.rs lines 437-458). -/
def updateTopicJoined (s : AppState) (result : Except Str (Str × Str)) : AppState :=
  match result with
  | .ok (topic, hash) =>
    let s1 := { s with
      current_topic := some topic
      topic_hash := some hash
      subscribed_topics := mapInsert topic hash s.subscribed_topics }
    match getUsername s1.input_state with
    | some username => { s1 with input_state := .chatRoom username [] }
    | none => s1
  | .error e => { s with error := some e }

/-- The application states reachable from startup through the modelled
`update` arms.  The id argument of a `SendMessage` step is a freshly generated
v4 UUID; its freshness (no earlier envelope carries it) is the hypothesis of
that step. -/
inductive Reach : AppState → Prop
  | start : Reach AppState.start
  | recv (s : AppState) (m : ChatMessage) : Reach s → Reach (updateMessageReceived s m)
  | changed (s : AppState) (msg : Str) : Reach s → Reach (updateMessageChanged s msg)
  | send (s : AppState) (mid : Str) (now : Nat) : Reach s →
      mid ∉ s.processed_message_ids → Reach (updateSendMessage s mid now)
  | back (s : AppState) : Reach s → Reach (updateBackToMenu s)
  | joined (s : AppState) (r : Except Str (Str × Str)) : Reach s → Reach (updateTopicJoined s r)

/-- The dedup invariant of the message list: ids are pairwise distinct and
every displayed id has been recorded in `processed_message_ids`. -/
def MessagesInv (s : AppState) : Prop :=
  (s.messages.map (fun m => m.id)).Nodup ∧
    ∀ i ∈ s.messages.map (fun m => m.id), i ∈ s.processed_message_ids

/-! Section: concrete scenario states used by witnesses and counterexamples. -/

instance {α β : Type} [DecidableEq α] [DecidableEq β] : DecidableEq (Except α β) :=
  fun a b =>
    match a, b with
    | .ok x, .ok y =>
      if h : x = y then .isTrue (by rw [h]) else .isFalse (by simp [h])
    | .error x, .error y =>
      if h : x = y then .isTrue (by rw [h]) else .isFalse (by simp [h])
    | .ok _, .error _ => .isFalse (by simp)
    | .error _, .ok _ => .isFalse (by simp)

/-- Scenario: topic "chat" created with a hyphenated v4 uuid, exactly as
`Uuid::new_v4().to_string()` produces. -/
def c2create : (Str × Str × Str) × Client × Hub :=
  create_topic Client.new "chat".toList "550e8400-e29b-41d4-a716-446655440000".toList [] 0
    Hub.start

/-- Scenario: the creating client immediately joins via the ticket it was
handed by `c2create`. -/
def c2join : Except Str (Str × Str) × Client × Hub :=
  join_topic c2create.2.1 c2create.1.2.1 [] [] 0 c2create.2.2

/-- Scenario client that has an active topic hash `"T"`. -/
def c8client : Client := { Client.new with topic_hash := some "T".toList }

/-- Scenario: the UI has joined topic "general". -/
def demoJoin : AppState :=
  updateTopicJoined AppState.start (.ok ("general".toList, "general-1a2b".toList))

/-- Scenario: the user has typed a message. -/
def demoTyped : AppState := updateMessageChanged demoJoin "hi there".toList

/-- Scenario: the message was sent with fresh id "m1". -/
def demoSent : AppState := updateSendMessage demoTyped "m1".toList 3

/-- Scenario: a duplicate envelope with the already-processed id "m1"
arrives. -/
def demoFinal : AppState :=
  updateMessageReceived demoSent
    ⟨"m1".toList, "eve".toList, "dup".toList, 4, "general-1a2b".toList, 9⟩

/-! Section: helper lemmas about the string operations. -/

theorem splitOnChar_cons (sep c : Char) (s : Str) :
    splitOnChar sep (c :: s) =
      match splitOnChar sep s with
      | [] => [[c]]
      | a :: as => if c = sep then [] :: a :: as else (c :: a) :: as := rfl

theorem splitOnChar_ne_nil (sep : Char) (s : Str) : splitOnChar sep s ≠ [] := by
  induction s with
  | nil => simp [splitOnChar]
  | cons c s ih =>
    rw [splitOnChar_cons]
    rcases h : splitOnChar sep s with _ | ⟨a, as⟩
    · simp
    · dsimp only
      split <;> simp

theorem joinSep_cons_of_ne_nil (sep : Char) (a : Str) (l : List Str) (h : l ≠ []) :
    joinSep sep (a :: l) = a ++ sep :: joinSep sep l := by
  cases l with
  | nil => exact absurd rfl h
  | cons b bs => rfl

theorem joinSep_cons_head (sep c : Char) (a : Str) (as : List Str) :
    joinSep sep ((c :: a) :: as) = c :: joinSep sep (a :: as) := by
  cases as with
  | nil => rfl
  | cons b bs => rfl

theorem joinSep_splitOnChar (sep : Char) (s : Str) :
    joinSep sep (splitOnChar sep s) = s := by
  induction s with
  | nil => simp [splitOnChar, joinSep]
  | cons c s ih =>
    rw [splitOnChar_cons]
    rcases h : splitOnChar sep s with _ | ⟨a, as⟩
    · exact absurd h (splitOnChar_ne_nil sep s)
    · rw [h] at ih
      dsimp only
      by_cases hc : c = sep
      · rw [if_pos hc, joinSep_cons_of_ne_nil sep [] (a :: as) (by simp), ih]
        simp [hc]
      · rw [if_neg hc, joinSep_cons_head, ih]

theorem splitOnChar_append_sep (sep : Char) (a b : Str) (h : sep ∉ a) :
    splitOnChar sep (a ++ sep :: b) = a :: splitOnChar sep b := by
  induction a with
  | nil =>
    rw [List.nil_append, splitOnChar_cons]
    rcases hb : splitOnChar sep b with _ | ⟨x, xs⟩
    · exact absurd hb (splitOnChar_ne_nil sep b)
    · simp
  | cons c a ih =>
    have hc : c ≠ sep := fun hc => h (hc ▸ List.mem_cons_self c a)
    have ha : sep ∉ a := fun hm => h (List.mem_cons_of_mem c hm)
    rw [List.cons_append, splitOnChar_cons, ih ha]
    simp [hc]

theorem splitOnChar_of_not_mem (sep : Char) (s : Str) (h : sep ∉ s) :
    splitOnChar sep s = [s] := by
  induction s with
  | nil => rfl
  | cons c s ih =>
    have hc : c ≠ sep := fun hc => h (hc ▸ List.mem_cons_self c s)
    have hs : sep ∉ s := fun hm => h (List.mem_cons_of_mem c hm)
    rw [splitOnChar_cons, ih hs]
    simp [hc]

theorem joinSep_dropLast_getLastD (sep : Char) (l : List Str) :
    ∀ (a d : Str), l ≠ [] →
      joinSep sep (a :: l.dropLast) ++ sep :: l.getLastD d = joinSep sep (a :: l) := by
  induction l with
  | nil => intro a d h; exact absurd rfl h
  | cons x xs ih =>
    intro a d _
    cases xs with
    | nil => rfl
    | cons y ys =>
      have hne : (y :: ys) ≠ [] := by simp
      rw [List.dropLast_cons₂, List.getLastD_cons,
        joinSep_cons_of_ne_nil sep a (x :: (y :: ys).dropLast) (by simp),
        joinSep_cons_of_ne_nil sep a (x :: y :: ys) (by simp),
        ← ih x x hne]
      simp [List.append_assoc]

/-! Section: claim theorems. -/

/-- C1 (amended): the consumer-facing receive API has no topic filter, and
`broadcast_message` never hands any envelope to a registered receiver at all —
its forwarder registry is the separate `broadcast_message`-local static, so
the queues registered by `get_message_receiver` are left untouched by every
publish, whatever the envelope's `topic_hash` is. -/
theorem broadcast_delivers_nothing_to_receivers (h : Hub) (m : ChatMessage) :
    (broadcast_message h m).regForwarders = h.regForwarders := by
  unfold broadcast_message
  split <;> rfl

/-- C1 counterexample: a receiver registered while its client was on topic
`"roomA-1"` later yields an envelope (the liveness probe) whose
`topic_hash` is `"ping"`, which differs from `"roomA-1"` — so a subscriber
does receive an envelope of a foreign topic identifier. -/
theorem receiver_yields_foreign_topic_envelope :
    (get_message_receiver ⟨true, some [], [some []], none⟩ 5).1.regForwarders.head? =
        some (some [pingMessage 5]) ∧
      (pingMessage 5).topic_hash ≠ "roomA-1".toList := by
  exact ⟨rfl, by decide⟩

/-- C3 (amended): `join_topic` returns the `"Invalid ticket format"` error
exactly when the ticket has the `"ticket-"` marker but fewer than 3
separator-delimited segments; a ticket without the marker is accepted. -/
theorem join_topic_invalid_iff (c : Client) (ticket freshUuid sysMid : Str)
    (now : Nat) (h : Hub) :
    (join_topic c ticket freshUuid sysMid now h).1 = .error invalidTicketMsg ↔
      (starts_with ticketTag ticket = true ∧ (splitOnChar '-' ticket).length < 3) := by
  unfold join_topic
  split
  · rename_i hp
    by_cases hl : 3 ≤ (splitOnChar '-' ticket).length
    · rw [if_pos hl]
      simp [hp]
      omega
    · rw [if_neg hl]
      simp [hp]
      omega
  · rename_i hp
    simp [hp]

/-- C3 counterexample: `join_topic("not-a-ticket")` does not fail; the code's
"custom ticket" branch accepts it and returns topic `"joined-topic"` with a
freshly generated uuid as hash. -/
theorem join_topic_accepts_not_a_ticket :
    (join_topic Client.new "not-a-ticket".toList "f47ac10b".toList [] 0 Hub.start).1 =
        .ok ("joined-topic".toList, "f47ac10b".toList) ∧
      (join_topic Client.new "not-a-ticket".toList "f47ac10b".toList [] 0 Hub.start).1 ≠
        .error invalidTicketMsg := by
  exact ⟨rfl, by decide⟩

/-- C4 (amended): `create_topic` always succeeds, returns the name, the
ticket `"ticket-" ++ name ++ "-" ++ uuid` and the identifier
`name ++ "-" ++ uuid`; the ticket equals `"ticket-" ++ identifier` (not
`"ticket-" ++ name ++ "-" ++ identifier`), and the local topic directory
afterwards maps the name to the identifier. -/
theorem create_topic_postcondition (c : Client) (name uuid sysMid : Str) (now : Nat)
    (h : Hub) :
    (create_topic c name uuid sysMid now h).1 =
        (name, ticketTag ++ (name ++ '-' :: uuid), name ++ '-' :: uuid) ∧
      (create_topic c name uuid sysMid now h).1.2.1 =
        ticketTag ++ (create_topic c name uuid sysMid now h).1.2.2 ∧
      (create_topic c name uuid sysMid now h).2.1.topic_hash =
        some (name ++ '-' :: uuid) ∧
      mapLookup name (create_topic c name uuid sysMid now h).2.1.subscribed_topics =
        some (name ++ '-' :: uuid) := by
  refine ⟨rfl, rfl, rfl, ?_⟩
  simp [create_topic, mapLookup, mapInsert, List.find?]

/-- C4 counterexample: for name `"chat"` and generated uuid `"u"`, the ticket
is `"ticket-chat-u"`, which differs from the claimed wire format
`"ticket-" + name + "-" + identifier` = `"ticket-chat-chat-u"`, because the
returned identifier is `"chat-u"`, not `"u"`. -/
theorem create_topic_ticket_format_differs :
    (create_topic Client.new "chat".toList "u".toList [] 0 Hub.start).1.2.1 =
        "ticket-chat-u".toList ∧
      (create_topic Client.new "chat".toList "u".toList [] 0 Hub.start).1.2.2 =
        "chat-u".toList ∧
      (create_topic Client.new "chat".toList "u".toList [] 0 Hub.start).1.2.1 ≠
        ticketTag ++ ("chat".toList ++ "-".toList ++
          (create_topic Client.new "chat".toList "u".toList [] 0 Hub.start).1.2.2) := by
  exact ⟨rfl, rfl, by decide⟩

/-- C6 (amended): `broadcast_message` drops probe envelopes before any
delivery (a ping broadcast is a no-op on the whole hub state), but
`get_message_receiver` enqueues a probe into every previously registered live
receiver queue as a liveness check, so the consumer-facing receive API does
yield probes and nothing filters them out before the dedup layer. -/
theorem probe_handling :
    (∀ (h : Hub) (m : ChatMessage), m.id = "ping".toList → m.author = "system".toList →
        broadcast_message h m = h) ∧
      (∀ (h : Hub) (now : Nat) (q : List ChatMessage), h.senderSome = true →
        some q ∈ h.regForwarders →
        some (q ++ [pingMessage now]) ∈ (get_message_receiver h now).1.regForwarders) := by
  constructor
  · intro h m h1 h2
    simp [broadcast_message, h1, h2]
  · intro h now q hs hq
    simp only [get_message_receiver, hs, if_true]
    refine List.mem_append.mpr (Or.inl ?_)
    exact List.mem_filterMap.mpr ⟨some q, hq, rfl⟩

/-- C6 witness: the probe no-op and the probe enqueueing at concrete
inputs. -/
theorem probe_handling_instance :
    broadcast_message Hub.start (pingMessage 0) = Hub.start ∧
      some ([] ++ [pingMessage 7]) ∈
        (get_message_receiver ⟨true, some [], [some []], none⟩ 7).1.regForwarders := by
  exact ⟨probe_handling.1 Hub.start (pingMessage 0) rfl rfl,
    probe_handling.2 ⟨true, some [], [some []], none⟩ 7 [] rfl (by simp)⟩

/-- C6 counterexample: registering a second receiver pushes the probe
envelope into the queue of the receiver registered earlier, so that receiver
yields a probe message through the consumer-facing receive API. -/
theorem probe_surfaced_to_receiver :
    (get_message_receiver ⟨true, some [], [some []], none⟩ 7).1.regForwarders =
        [some [pingMessage 7], some []] ∧
      (pingMessage 7).id = "ping".toList := by
  exact ⟨rfl, rfl⟩

/-- C7 at the failing input: a dead (closed) subscriber registered in the
receive-API registry is still registered after a publish of a normal
envelope, because `broadcast_message` reads its own, never-populated
forwarder static (`bcastForwarders` stays `none`) and never touches the
receive-API registry — the publish neither delivers to nor reaps registered
subscribers. -/
theorem broadcast_does_not_reap_registered :
    (broadcast_message ⟨true, some [], [none], none⟩
          ⟨"m1".toList, "alice".toList, "hello".toList, 0, "T-1".toList, 1⟩).regForwarders =
        [none] ∧
      (broadcast_message ⟨true, some [], [none], none⟩
          ⟨"m1".toList, "alice".toList, "hello".toList, 0, "T-1".toList, 1⟩).bcastForwarders =
        none := by
  exact ⟨rfl, rfl⟩

/-- C8 (amended): `send_message` fails with `"No active topic hash"` exactly
when the client has no active topic hash, and on success it returns unit (not
the envelope id) after broadcasting the freshly built envelope. -/
theorem send_message_contract :
    (∀ (c : Client) (u m : Str) (seq : Nat) (mid : Str) (now : Nat) (h : Hub),
        (send_message c u m seq mid now h).1 = .error noActiveTopicMsg ↔
          c.topic_hash = none) ∧
      (∀ (c : Client) (u m : Str) (seq : Nat) (mid : Str) (now : Nat) (h : Hub) (th : Str),
        c.topic_hash = some th →
          send_message c u m seq mid now h =
            (.ok (), broadcast_message h ⟨mid, u, m, now, th, seq⟩)) := by
  constructor
  · intro c u m seq mid now h
    cases hth : c.topic_hash <;> simp [send_message, hth]
  · intro c u m seq mid now h th hth
    simp [send_message, hth]

/-- C8 witness: the success case evaluated at a concrete client with active
topic hash `"T"`. -/
theorem send_message_contract_instance :
    send_message c8client "u".toList "hello".toList 1 "a".toList 0 Hub.start =
      (.ok (), broadcast_message Hub.start
        ⟨"a".toList, "u".toList, "hello".toList, 0, "T".toList, 1⟩) :=
  send_message_contract.2 c8client "u".toList "hello".toList 1 "a".toList 0 Hub.start
    "T".toList rfl

/-- C8 counterexample: two sends that create envelopes with different ids
return the same success value `()`, so the success value cannot be the id of
the envelope that was created and published. -/
theorem send_message_returns_unit_not_id :
    (send_message c8client "u".toList "hello".toList 1 "a".toList 0 Hub.start).1 =
        .ok () ∧
      (send_message c8client "u".toList "hello".toList 1 "b".toList 0 Hub.start).1 =
        .ok () ∧
      ("a".toList : Str) ≠ "b".toList := by
  exact ⟨rfl, rfl, by decide⟩

/-- C9: whenever `join_topic` returns an error, the client state (including
`topic_ticket`, `topic_hash` and `subscribed_topics`) and the hub are exactly
as they were before the call. -/
theorem join_topic_error_preserves_state (c : Client) (ticket freshUuid sysMid : Str)
    (now : Nat) (h : Hub) (e : Str)
    (herr : (join_topic c ticket freshUuid sysMid now h).1 = .error e) :
    (join_topic c ticket freshUuid sysMid now h).2.1 = c ∧
      (join_topic c ticket freshUuid sysMid now h).2.2 = h := by
  unfold join_topic at herr ⊢
  split at herr
  · rename_i hp
    by_cases hl : 3 ≤ (splitOnChar '-' ticket).length
    · rw [if_pos hl] at herr
      simp at herr
    · rw [if_pos hp, if_neg hl]
      exact ⟨rfl, rfl⟩
  · simp at herr

/-- C9 witness: the error case at the concrete too-short ticket
`"ticket-x"`. -/
theorem join_topic_error_preserves_state_instance :
    (join_topic Client.new "ticket-x".toList "f".toList [] 0 Hub.start).2.1 = Client.new ∧
      (join_topic Client.new "ticket-x".toList "f".toList [] 0 Hub.start).2.2 = Hub.start :=
  join_topic_error_preserves_state Client.new "ticket-x".toList "f".toList [] 0 Hub.start
    invalidTicketMsg rfl

theorem dedupCheck_mem (processed : List Str) (id : Str) (h : id ∈ processed) :
    dedupCheck processed id = (false, processed) := by
  simp [dedupCheck, h]

theorem dedupCheck_not_mem (processed : List Str) (id : Str) (h : id ∉ processed) :
    dedupCheck processed id = (true, id :: processed) := by
  simp [dedupCheck, h]

theorem runDedup_cons (processed : List Str) (id : Str) (rest : List Str) :
    runDedup processed (id :: rest) =
      (dedupCheck processed id).1 :: runDedup (dedupCheck processed id).2 rest := by
  conv_lhs => unfold runDedup

theorem join_topic_wellformed (c : Client) (name uuid freshUuid sysMid : Str) (now : Nat)
    (h : Hub) (hname : '-' ∉ name) :
    (join_topic c (ticketTag ++ (name ++ '-' :: uuid)) freshUuid sysMid now h).1 =
      .ok (joinSep '-' (name :: (splitOnChar '-' uuid).dropLast), name ++ '-' :: uuid) := by
  rcases hus : splitOnChar '-' uuid with _ | ⟨u, us⟩
  · exact absurd hus (splitOnChar_ne_nil '-' uuid)
  have hsw : starts_with ticketTag (ticketTag ++ (name ++ '-' :: uuid)) = true := by
    simp [starts_with, ticketTag, List.take_left]
  have hsplit : splitOnChar '-' (ticketTag ++ (name ++ '-' :: uuid)) =
      "ticket".toList :: name :: splitOnChar '-' uuid := by
    rw [show (ticketTag : Str) = "ticket".toList ++ ['-'] from rfl,
      List.append_assoc, List.singleton_append,
      splitOnChar_append_sep '-' _ _ (by decide), splitOnChar_append_sep '-' _ _ hname]
  unfold join_topic
  rw [hsw, if_pos rfl, hsplit, hus]
  rw [if_pos (by simp)]
  dsimp only
  rw [List.drop_one, List.tail_cons, List.dropLast_cons₂, List.getLastD_cons,
    List.getLastD_cons, joinSep_dropLast_getLastD '-' (u :: us) name name (by simp),
    joinSep_cons_of_ne_nil '-' name (u :: us) (by simp),
    show joinSep '-' (u :: us) = uuid from hus ▸ joinSep_splitOnChar '-' uuid]

/-- C2 (amended): for a topic name without the separator, joining the created
ticket always succeeds and always returns the identifier produced at creation
(`name ++ "-" ++ uuid`); the returned topic name, however, is the re-join of
all middle segments, which equals the original name only when the generated
uuid itself contains no separator — with the hyphenated v4 UUIDs the code
generates, the name is not reproduced. -/
theorem ticket_roundtrip_identifier (c c2 : Client) (name uuid sysMid fresh sysMid2 : Str)
    (now now2 : Nat) (h h2 : Hub) (hname : '-' ∉ name) :
    (join_topic c2 (create_topic c name uuid sysMid now h).1.2.1 fresh sysMid2 now2 h2).1 =
        .ok (joinSep '-' (name :: (splitOnChar '-' uuid).dropLast),
          (create_topic c name uuid sysMid now h).1.2.2) ∧
      ('-' ∉ uuid → joinSep '-' (name :: (splitOnChar '-' uuid).dropLast) = name) := by
  constructor
  · exact join_topic_wellformed c2 name uuid fresh sysMid2 now2 h2 hname
  · intro hu
    rw [splitOnChar_of_not_mem '-' uuid hu]
    rfl

/-- C2 witness: the round-trip at the concrete name `"chat"` and a
separator-free uuid `"u1"`, where both components are reproduced. -/
theorem ticket_roundtrip_identifier_instance :
    (join_topic Client.new
          (create_topic Client.new "chat".toList "u1".toList [] 0 Hub.start).1.2.1
          [] [] 0 Hub.start).1 =
        .ok (joinSep '-' ("chat".toList :: (splitOnChar '-' "u1".toList).dropLast),
          (create_topic Client.new "chat".toList "u1".toList [] 0 Hub.start).1.2.2) ∧
      ('-' ∉ "u1".toList →
        joinSep '-' ("chat".toList :: (splitOnChar '-' "u1".toList).dropLast) =
          "chat".toList) :=
  ticket_roundtrip_identifier Client.new Client.new "chat".toList "u1".toList [] [] [] 0 0
    Hub.start Hub.start (by decide)

/-- C2 counterexample: with the hyphenated v4 uuid the code generates,
joining the ticket for topic `"chat"` returns the topic name
`"chat-550e8400-e29b-41d4-a716"`, not `"chat"` (the identifier is still
reproduced exactly). -/
theorem ticket_roundtrip_loses_name :
    c2join.1 = .ok ("chat-550e8400-e29b-41d4-a716".toList, c2create.1.2.2) ∧
      "chat-550e8400-e29b-41d4-a716".toList ≠ c2create.1.1 := by
  exact ⟨rfl, by decide⟩

theorem runDedup_count (x : Str) (ids : List Str) : ∀ processed : List Str,
    ((ids.zip (runDedup processed ids)).filter (fun p => decide (p.1 = x) && p.2)).length =
      if x ∈ ids ∧ x ∉ processed then 1 else 0 := by
  induction ids with
  | nil => intro processed; simp [runDedup]
  | cons y rest ih =>
    intro processed
    by_cases hy : y ∈ processed
    · rw [runDedup_cons, dedupCheck_mem processed y hy]
      dsimp only
      rw [List.zip_cons_cons, List.filter_cons]
      have hcond : (decide ((y, false).1 = x) && (y, false).2) = false := by simp
      rw [hcond]
      simp only [Bool.false_eq_true, if_false]
      rw [ih processed]
      have hiff : (x ∈ rest ∧ x ∉ processed) ↔ (x ∈ y :: rest ∧ x ∉ processed) := by
        constructor
        · rintro ⟨h1, h2⟩
          exact ⟨List.mem_cons_of_mem y h1, h2⟩
        · rintro ⟨h1, h2⟩
          rcases List.mem_cons.mp h1 with h3 | h3
          · exact absurd (h3 ▸ hy) h2
          · exact ⟨h3, h2⟩
      rw [if_congr hiff rfl rfl]
    · rw [runDedup_cons, dedupCheck_not_mem processed y hy]
      dsimp only
      rw [List.zip_cons_cons, List.filter_cons]
      by_cases hxy : x = y
      · subst hxy
        have hcond : (decide ((x, true).1 = x) && (x, true).2) = true := by simp
        rw [hcond]
        simp only [if_true]
        rw [List.length_cons, ih (x :: processed)]
        simp [hy]
      · have hcond : (decide ((y, true).1 = x) && (y, true).2) = false := by
          simp [eq_comm, hxy]
        rw [hcond]
        simp only [Bool.false_eq_true, if_false]
        rw [ih (y :: processed)]
        have hiff : (x ∈ rest ∧ x ∉ y :: processed) ↔ (x ∈ y :: rest ∧ x ∉ processed) := by
          simp [List.mem_cons, hxy]
        rw [if_congr hiff rfl rfl]

theorem runDedup_getD (ids : List Str) : ∀ (processed : List Str) (i : Nat),
    (runDedup processed ids).getD i false = true ↔
      (i < ids.length ∧ ids.getD i [] ∉ processed ∧ ids.getD i [] ∉ ids.take i) := by
  induction ids with
  | nil =>
    intro processed i
    simp [runDedup]
  | cons y rest ih =>
    intro processed i
    rw [runDedup_cons]
    cases i with
    | zero =>
      by_cases hy : y ∈ processed
      · rw [dedupCheck_mem _ _ hy]
        simp [hy]
      · rw [dedupCheck_not_mem _ _ hy]
        simp [hy]
    | succ k =>
      rw [List.getD_cons_succ, List.getD_cons_succ, List.take_succ_cons]
      by_cases hy : y ∈ processed
      · rw [dedupCheck_mem _ _ hy]
        dsimp only
        rw [ih processed k]
        constructor
        · rintro ⟨h1, h2, h3⟩
          refine ⟨by simpa using Nat.succ_lt_succ h1, h2, ?_⟩
          intro hmem
          rcases List.mem_cons.mp hmem with h4 | h4
          · exact h2 (h4 ▸ hy)
          · exact h3 h4
        · rintro ⟨h1, h2, h3⟩
          exact ⟨by simpa using Nat.lt_of_succ_lt_succ h1, h2,
            fun h4 => h3 (List.mem_cons_of_mem y h4)⟩
      · rw [dedupCheck_not_mem _ _ hy]
        dsimp only
        rw [ih (y :: processed) k]
        constructor
        · rintro ⟨h1, h2, h3⟩
          refine ⟨by simpa using Nat.succ_lt_succ h1, ?_, ?_⟩
          · exact fun h4 => h2 (List.mem_cons_of_mem y h4)
          · intro hmem
            rcases List.mem_cons.mp hmem with h4 | h4
            · exact h2 (h4 ▸ List.mem_cons_self y processed)
            · exact h3 h4
        · rintro ⟨h1, h2, h3⟩
          refine ⟨by simpa using Nat.lt_of_succ_lt_succ h1, ?_, ?_⟩
          · intro h4
            rcases List.mem_cons.mp h4 with h5 | h5
            · exact h3 (h5 ▸ List.mem_cons_self y (rest.take k))
            · exact h2 h5
          · exact fun h4 => h3 (List.mem_cons_of_mem y h4)

/-- C5: starting from an empty seen-set, the dedup admission check answers
`true` exactly once per distinct envelope id and `false` on every other call:
the number of `true` answers among the calls with a given id is one precisely
when the id occurs, and the `true` answer falls exactly on an id's first
occurrence (the call at position `i` is admitted iff that id does not occur
among the earlier calls). -/
theorem dedup_true_exactly_once :
    (∀ (ids : List Str) (x : Str),
      ((ids.zip (runDedup [] ids)).filter (fun p => decide (p.1 = x) && p.2)).length =
        if x ∈ ids then 1 else 0) ∧
      (∀ (ids : List Str) (i : Nat),
        (runDedup [] ids).getD i false = true ↔
          (i < ids.length ∧ ids.getD i [] ∉ ids.take i)) := by
  constructor
  · intro ids x
    have h := runDedup_count x ids []
    simpa using h
  · intro ids i
    have h := runDedup_getD ids [] i
    simpa using h

theorem messagesInv_append (msgs : List ChatMessage) (processed : List Str)
    (m : ChatMessage) (hnd : (msgs.map (fun mm => mm.id)).Nodup)
    (hsub : ∀ i ∈ msgs.map (fun mm => mm.id), i ∈ processed)
    (hfresh : m.id ∉ processed) :
    ((msgs ++ [m]).map (fun mm => mm.id)).Nodup ∧
      ∀ i ∈ (msgs ++ [m]).map (fun mm => mm.id), i ∈ m.id :: processed := by
  constructor
  · rw [List.map_append]
    have hm : m.id ∉ msgs.map (fun mm => mm.id) := fun hmm => hfresh (hsub _ hmm)
    have hperm := List.perm_append_singleton m.id (msgs.map (fun mm => mm.id))
    simp only [List.map_cons, List.map_nil]
    exact hperm.nodup_iff.mpr (List.nodup_cons.mpr ⟨hm, hnd⟩)
  · intro i hi
    rw [List.map_append] at hi
    rcases List.mem_append.mp hi with h1 | h1
    · exact List.mem_cons_of_mem _ (hsub i h1)
    · simp only [List.map_cons, List.map_nil, List.mem_singleton] at h1
      simp [h1]

theorem messagesInv_of_eq (s t : AppState) (h1 : t.messages = s.messages)
    (h2 : t.processed_message_ids = s.processed_message_ids) (hi : MessagesInv s) :
    MessagesInv t := by
  unfold MessagesInv at hi ⊢
  rw [h1, h2]
  exact hi

/-- C10: in every reachable application state, each envelope id occurs at
most once in the displayed messages list and every displayed id is recorded
in `processed_message_ids`; receiving an envelope, sending a message (whose
generated uuid is fresh), editing the input, leaving the room and joining a
topic all preserve the invariant. -/
theorem ui_messages_dedup_invariant (s : AppState) (hs : Reach s) : MessagesInv s := by
  induction hs with
  | start =>
    refine ⟨List.nodup_nil, ?_⟩
    intro i hi
    simp [AppState.start] at hi
  | recv s m hr ih =>
    obtain ⟨hnd, hsub⟩ := ih
    by_cases hmem : m.id ∈ s.processed_message_ids
    · have hstep : updateMessageReceived s m = s := by
        unfold updateMessageReceived
        rw [dedupCheck_mem _ _ hmem]
      rw [hstep]
      exact ⟨hnd, hsub⟩
    · have hstep : updateMessageReceived s m =
          { s with messages := s.messages ++ [m],
                   processed_message_ids := m.id :: s.processed_message_ids } := by
        unfold updateMessageReceived
        rw [dedupCheck_not_mem _ _ hmem]
      rw [hstep]
      exact messagesInv_append s.messages s.processed_message_ids m hnd hsub hmem
  | changed s msg hr ih =>
    refine messagesInv_of_eq s (updateMessageChanged s msg) ?_ ?_ ih <;>
      (unfold updateMessageChanged; cases s.input_state <;> rfl)
  | send s mid now hr hfresh ih =>
    obtain ⟨hnd, hsub⟩ := ih
    unfold updateSendMessage
    rcases his : s.input_state with ⟨u⟩ | ⟨u⟩ | ⟨u, t⟩ | ⟨u, t⟩ | ⟨u, t, k⟩ | ⟨u, msg⟩
    · dsimp only
      exact ⟨hnd, hsub⟩
    · dsimp only
      exact ⟨hnd, hsub⟩
    · dsimp only
      exact ⟨hnd, hsub⟩
    · dsimp only
      exact ⟨hnd, hsub⟩
    · dsimp only
      exact ⟨hnd, hsub⟩
    · dsimp only
      split
      · exact messagesInv_append s.messages s.processed_message_ids
          ⟨mid, u, msg, now, s.topic_hash.getD [], s.sequence_counter⟩ hnd hsub hfresh
      · exact ⟨hnd, hsub⟩
  | back s hr ih =>
    have h1 : (updateBackToMenu s).messages = [] := by
      unfold updateBackToMenu
      cases s.input_state <;> rfl
    unfold MessagesInv
    rw [h1]
    refine ⟨List.nodup_nil, ?_⟩
    intro i hi
    simp at hi
  | joined s r hr ih =>
    refine messagesInv_of_eq s (updateTopicJoined s r) ?_ ?_ ih <;>
      · unfold updateTopicJoined
        cases r with
        | error e => rfl
        | ok p =>
          rcases p with ⟨t, hsh⟩
          dsimp only
          cases s.input_state <;> rfl

/-- C10 witness: the invariant at the end of a concrete reachable run that
joins a topic, types a message, sends it with fresh uuid `"m1"` and then
receives a duplicate envelope with the same id. -/
theorem ui_messages_dedup_invariant_instance : MessagesInv demoFinal :=
  ui_messages_dedup_invariant demoFinal
    (Reach.recv demoSent
      ⟨"m1".toList, "eve".toList, "dup".toList, 4, "general-1a2b".toList, 9⟩
      (Reach.send demoTyped "m1".toList 3
        (Reach.changed demoJoin "hi there".toList
          (Reach.joined AppState.start (.ok ("general".toList, "general-1a2b".toList))
            Reach.start))
        (by decide)))

end IrohLab
